import Mathlib

/-!
Verification of the `i2c` connection library (`i2c.go`).

The Go source is shallowly embedded: bytes are `Nat` values below 256,
the kernel character device behind the connection's file handle is an
explicit oracle (`Device`) threaded as state, Go errors are the
inductive `I2CError`, and a nil-interface dereference (Go panic) is the
`Outcome.panic` result.  Each function of the source is translated
line by line; the mutex discipline of `Read`/`Write`/`Close` is modelled
separately as a labelled transition system.
-/

/-- Byte orders offered by Go's `encoding/binary`: the two concrete
`binary.ByteOrder` implementations the library is used with. -/
inductive ByteOrder : Type
  | big
  | little
deriving DecidableEq

/-- `binary.BigEndian.PutUintN`: most significant byte first; byte `i`
of the `w`-byte buffer is `byte(v >> (8*(w-1-i)))`. -/
def putUintBE : Nat → Nat → List Nat
  | 0, _ => []
  | w + 1, v => v / 256 ^ w % 256 :: putUintBE w v

/-- `binary.LittleEndian.PutUintN`: least significant byte first; byte
`i` of the `w`-byte buffer is `byte(v >> (8*i))`. -/
def putUintLE : Nat → Nat → List Nat
  | 0, _ => []
  | w + 1, v => v % 256 :: putUintLE w (v / 256)

/-- `binary.BigEndian.UintN`: fold the bytes most-significant first. -/
def uintBE (bs : List Nat) : Nat :=
  List.foldl (fun a b => a * 256 + b) 0 bs

/-- `binary.LittleEndian.UintN`: byte `i` contributes `b[i] << (8*i)`. -/
def uintLE : List Nat → Nat
  | [] => 0
  | b :: bs => b + 256 * uintLE bs

/-- `c.endian.PutUintN`, dispatching on the stored byte order. -/
def putUint : ByteOrder → Nat → Nat → List Nat
  | .big, w, v => putUintBE w v
  | .little, w, v => putUintLE w v

/-- `c.endian.UintN`, dispatching on the stored byte order. -/
def getUint : ByteOrder → List Nat → Nat
  | .big, bs => uintBE bs
  | .little, bs => uintLE bs

/-- The error values of `i2c.go` (`ErrInvalid`, `ErrClosed`,
`ErrTruncated`) together with pass-through operating-system errors,
identified by their errno/code. -/
inductive I2CError : Type
  | invalid
  | closed
  | truncated
  | os (code : Nat)
deriving DecidableEq

/-- Result of a Go call in the model: a normal value, a returned error,
or a runtime panic (nil-interface dereference). -/
inductive Outcome (α : Type) : Type
  | ok (a : α)
  | err (e : I2CError)
  | panic
deriving DecidableEq

/-- Oracle for the open file handle `c.f`: what the underlying
character device does on `f.Read`, `f.Write` and `f.Close`.  `read`
takes the requested buffer length and yields the byte count, the
post-read buffer contents and an optional error; `write` takes the
bytes and yields the reported count and an optional error. -/
structure Device (σ : Type) : Type where
  read : σ → Nat → (Nat × List Nat × Option I2CError) × σ
  write : σ → List Nat → (Nat × Option I2CError) × σ
  close : σ → Option I2CError × σ

/-- The `Conn` struct of `i2c.go`.  `f` records whether the file handle
is present (`c.f != nil`); the handle's behaviour lives in the
`Device` oracle.  `endian` is the `binary.ByteOrder` interface field,
`none` when the nil interface was never assigned. -/
structure Conn : Type where
  bus : String
  addr : Nat
  f : Bool
  endian : Option ByteOrder
deriving DecidableEq

/-- ioctl request codes from `/usr/include/linux/i2c-dev.h`, as named
in the source. -/
def RETRIES : Nat := 0x0701

def TIMEOUT : Nat := 0x0702

def SLAVE : Nat := 0x0703

def SLAVE_FORCE : Nat := 0x0706

def TENBIT : Nat := 0x0704

def FUNCS : Nat := 0x0705

def RDWR : Nat := 0x0707

def PEC : Nat := 0x0708

def SMBUS : Nat := 0x0720

/-- Oracle for the system-call layer used by `Conn.ioctl`: the error of
`c.f.SyscallConn()`, the error returned by `sc.Control` itself, and the
errno produced by the raw `SYS_IOCTL` syscall (0 meaning success), each
per `(cmd, arg)` pair. -/
structure IoctlEnv : Type where
  syscallConnErr : Nat → Nat → Option I2CError
  controlErr : Nat → Nat → Option I2CError
  errno : Nat → Nat → Nat

/-- `func (c *Conn) ioctl(cmd, arg uintptr) error`.  Mirrors the
source: nil receiver yields `ErrInvalid`; nil handle yields
`ErrClosed`; a `SyscallConn` error is returned; then `sc.Control` is
invoked and its own return value is discarded — when `Control` fails
the closure never runs and `err` is still nil; when it succeeds a
nonzero errno from the raw syscall is returned. -/
def Conn.ioctl (env : IoctlEnv) (c : Option Conn) (cmd arg : Nat) : Option I2CError :=
  match c with
  | none => some .invalid
  | some cc =>
    if cc.f = false then some .closed
    else
      match env.syscallConnErr cmd arg with
      | some e => some e
      | none =>
        match env.controlErr cmd arg with
        | some _ => none
        | none =>
          if env.errno cmd arg ≠ 0 then some (.os (env.errno cmd arg)) else none

/-- `func (c *Conn) Close() error`.  Nil receiver: `ErrInvalid`.  Under
the mutex: nil handle yields `ErrClosed`; otherwise the handle is
closed, the field set to nil, and the close error (if any) returned. -/
def Conn.Close (dev : Device σ) (c : Option Conn) (s : σ) :
    Option I2CError × Option Conn × σ :=
  match c with
  | none => (some .invalid, none, s)
  | some cc =>
    if cc.f = false then (some .closed, some cc, s)
    else
      let (err, s') := dev.close s
      (err, some { cc with f := false }, s')

/-- `func (c *Conn) Read(data []byte) (int, error)`.  Nil receiver:
`(0, ErrInvalid)`.  Under the mutex: nil handle yields
`(0, ErrClosed)`; otherwise one direct pass-through to `c.f.Read`. -/
def Conn.Read (dev : Device σ) (c : Option Conn) (s : σ) (len : Nat) :
    (Nat × List Nat × Option I2CError) × Option Conn × σ :=
  match c with
  | none => ((0, List.replicate len 0, some .invalid), none, s)
  | some cc =>
    if cc.f = false then ((0, List.replicate len 0, some .closed), some cc, s)
    else
      let (r, s') := dev.read s len
      (r, some cc, s')

/-- `func (c *Conn) Write(data []byte) (int, error)`.  Nil receiver:
`(0, ErrInvalid)`.  Under the mutex: nil handle yields
`(0, ErrClosed)`; otherwise one direct pass-through to `c.f.Write`. -/
def Conn.Write (dev : Device σ) (c : Option Conn) (s : σ) (data : List Nat) :
    (Nat × Option I2CError) × Option Conn × σ :=
  match c with
  | none => ((0, some .invalid), none, s)
  | some cc =>
    if cc.f = false then ((0, some .closed), some cc, s)
    else
      let (r, s') := dev.write s data
      (r, some cc, s')

/-- Common body of `ReadUint16`/`ReadUint32`/`ReadUint64` (the three
differ only in the width `w` and decoder): allocate a `w`-byte buffer,
`c.Read` it, return any error; return `ErrTruncated` when fewer than
`w` bytes came back; otherwise decode via `c.endian.UintN(d)` — a
dereference of the `endian` interface field, which panics when that
field is nil. -/
def Conn.ReadUintN (dev : Device σ) (w : Nat) (c : Option Conn) (s : σ) :
    Outcome Nat × Option Conn × σ :=
  match Conn.Read dev c s w with
  | ((_, _, some e), c', s') => (.err e, c', s')
  | ((n, d, none), c', s') =>
    if n ≠ w then (.err .truncated, c', s')
    else
      match c with
      | none => (.panic, c', s')
      | some cc =>
        match cc.endian with
        | none => (.panic, c', s')
        | some bo => (.ok (getUint bo d), c', s')

/-- `func (c *Conn) ReadUint16() (uint16, error)`. -/
def Conn.ReadUint16 (dev : Device σ) (c : Option Conn) (s : σ) :
    Outcome Nat × Option Conn × σ :=
  Conn.ReadUintN dev 2 c s

/-- `func (c *Conn) ReadUint32() (uint32, error)`. -/
def Conn.ReadUint32 (dev : Device σ) (c : Option Conn) (s : σ) :
    Outcome Nat × Option Conn × σ :=
  Conn.ReadUintN dev 4 c s

/-- `func (c *Conn) ReadUint64() (uint64, error)`. -/
def Conn.ReadUint64 (dev : Device σ) (c : Option Conn) (s : σ) :
    Outcome Nat × Option Conn × σ :=
  Conn.ReadUintN dev 8 c s

/-- Common body of `WriteUint16`/`WriteUint32`/`WriteUint64`: nil
receiver yields `ErrInvalid`; then `c.endian.PutUintN(d, val)` encodes
the value — a dereference of the `endian` interface field, panicking
when it is nil, and happening before `c.Write`'s closed check; a write
error is returned; a short count yields `ErrTruncated`. -/
def Conn.WriteUintN (dev : Device σ) (w : Nat) (c : Option Conn) (v : Nat) (s : σ) :
    Outcome Unit × Option Conn × σ :=
  match c with
  | none => (.err .invalid, none, s)
  | some cc =>
    match cc.endian with
    | none => (.panic, some cc, s)
    | some bo =>
      let d := putUint bo w v
      match Conn.Write dev (some cc) s d with
      | ((_, some e), c', s') => (.err e, c', s')
      | ((n, none), c', s') =>
        if n ≠ w then (.err .truncated, c', s') else (.ok (), c', s')

/-- `func (c *Conn) WriteUint16(val uint16) error`. -/
def Conn.WriteUint16 (dev : Device σ) (c : Option Conn) (v : Nat) (s : σ) :
    Outcome Unit × Option Conn × σ :=
  Conn.WriteUintN dev 2 c v s

/-- `func (c *Conn) WriteUint32(val uint32) error`. -/
def Conn.WriteUint32 (dev : Device σ) (c : Option Conn) (v : Nat) (s : σ) :
    Outcome Unit × Option Conn × σ :=
  Conn.WriteUintN dev 4 c v s

/-- `func (c *Conn) WriteUint64(val uint64) error`. -/
def Conn.WriteUint64 (dev : Device σ) (c : Option Conn) (v : Nat) (s : σ) :
    Outcome Unit × Option Conn × σ :=
  Conn.WriteUintN dev 8 c v s

/-- `func NewConn(bus string, addr uint, tenBit bool, endian
binary.ByteOrder) (*Conn, error)`.  `openErr` is the oracle for
`os.OpenFile`.  Mirrors the source: on open success the struct literal
`&Conn{bus: bus, addr: addr, f: f}` is built — the `endian` parameter
is not assigned to any field; the `TENBIT` ioctl runs with argument 1
or 0, then on success the `SLAVE` ioctl; on a configuration error
`c.Close()` runs (its result discarded) and the configuration error is
returned with a nil connection. -/
def NewConn (openErr : Option I2CError) (env : IoctlEnv) (dev : Device σ) (s : σ)
    (bus : String) (addr : Nat) (tenBit : Bool) (_endian : ByteOrder) :
    (Option Conn × Option I2CError) × σ :=
  match openErr with
  | some e => ((none, some e), s)
  | none =>
    let c : Conn := { bus := bus, addr := addr, f := true, endian := none }
    let err1 :=
      if tenBit then Conn.ioctl env (some c) TENBIT 1
      else Conn.ioctl env (some c) TENBIT 0
    let err2 :=
      match err1 with
      | none => Conn.ioctl env (some c) SLAVE addr
      | some e => some e
    match err2 with
    | some e =>
      let (_, _, s') := Conn.Close dev (some c) s
      ((none, some e), s')
    | none => ((some c, none), s)

/-- The big-endian encoder always produces exactly `w` bytes. -/
theorem putUintBE_length (w v : Nat) : (putUintBE w v).length = w := by
  induction w generalizing v with
  | zero => rfl
  | succ w ih => simp [putUintBE, ih]

/-- The little-endian encoder always produces exactly `w` bytes. -/
theorem putUintLE_length (w v : Nat) : (putUintLE w v).length = w := by
  induction w generalizing v with
  | zero => rfl
  | succ w ih => simp [putUintLE, ih]

/-- Unfolding of the big-endian fold with an arbitrary accumulator. -/
theorem uintBE_foldl (bs : List Nat) (a : Nat) :
    List.foldl (fun a b => a * 256 + b) a bs = a * 256 ^ bs.length + uintBE bs := by
  induction bs generalizing a with
  | nil => simp [uintBE]
  | cons b bs ih =>
    have hb : uintBE (b :: bs) = b * 256 ^ bs.length + uintBE bs := by
      simpa [uintBE] using ih b
    simp only [List.foldl_cons, List.length_cons, hb, ih (a * 256 + b)]
    ring

/-- Big-endian decode of a big-endian encode recovers the value modulo
`256 ^ w`. -/
theorem uintBE_putUintBE (w v : Nat) : uintBE (putUintBE w v) = v % 256 ^ w := by
  induction w with
  | zero => simp [putUintBE, uintBE, Nat.mod_one]
  | succ w ih =>
    have h1 : uintBE (putUintBE (w + 1) v)
        = (v / 256 ^ w % 256) * 256 ^ w + uintBE (putUintBE w v) := by
      simpa [putUintBE, uintBE, putUintBE_length] using
        uintBE_foldl (putUintBE w v) (v / 256 ^ w % 256)
    rw [h1, ih, pow_succ, Nat.mod_mul]
    ring

/-- Little-endian decode of a little-endian encode recovers the value
modulo `256 ^ w`. -/
theorem uintLE_putUintLE (w v : Nat) : uintLE (putUintLE w v) = v % 256 ^ w := by
  induction w generalizing v with
  | zero => simp [putUintLE, uintLE, Nat.mod_one]
  | succ w ih =>
    have h : 256 ^ (w + 1) = 256 * 256 ^ w := by rw [pow_succ]; ring
    rw [putUintLE, uintLE, ih (v / 256), h, Nat.mod_mul]

/-- Decode-after-encode for either byte order. -/
theorem getUint_putUint (bo : ByteOrder) (w v : Nat) :
    getUint bo (putUint bo w v) = v % 256 ^ w := by
  cases bo <;> simp [getUint, putUint, uintBE_putUintBE, uintLE_putUintLE]

/-- Encoders of either byte order produce exactly `w` bytes. -/
theorem putUint_length (bo : ByteOrder) (w v : Nat) : (putUint bo w v).length = w := by
  cases bo <;> simp [putUint, putUintBE_length, putUintLE_length]

/-- Trivial device: every call succeeds and transfers nothing. -/
def unitDev : Device Unit where
  read := fun s len => ((0, List.replicate len 0, none), s)
  write := fun s _ => ((0, none), s)
  close := fun s => (none, s)

/-- Short-transfer device: every read and write reports exactly one
byte moved, with no error. -/
def shortDev : Device Unit where
  read := fun s len => ((1, List.replicate len 0, none), s)
  write := fun s _ => ((1, none), s)
  close := fun s => (none, s)

/-- Loopback device: a write stores its bytes as the device state and a
read returns exactly the bytes previously written. -/
def loopback : Device (List Nat) where
  read := fun s _ => ((s.length, s, none), s)
  write := fun _ data => ((data.length, none), data)
  close := fun s => (none, s)

/-- System-call environment in which every configuration call succeeds. -/
def okIoctlEnv : IoctlEnv where
  syscallConnErr := fun _ _ => none
  controlErr := fun _ _ => none
  errno := fun _ _ => 0

/-- Environment in which the `TENBIT` ioctl fails with errno 5 (EIO). -/
def tenbitFailEnv : IoctlEnv where
  syscallConnErr := fun _ _ => none
  controlErr := fun _ _ => none
  errno := fun cmd _ => if cmd = TENBIT then 5 else 0

/-- Environment in which the `SLAVE` ioctl fails with errno 16 (EBUSY). -/
def slaveFailEnv : IoctlEnv where
  syscallConnErr := fun _ _ => none
  controlErr := fun _ _ => none
  errno := fun cmd _ => if cmd = SLAVE then 16 else 0

/-- Environment in which `sc.Control` itself returns an error (errno 9,
EBADF) and the raw syscall therefore never runs. -/
def controlFailEnv : IoctlEnv where
  syscallConnErr := fun _ _ => none
  controlErr := fun _ _ => some (.os 9)
  errno := fun _ _ => 0

/-- An open connection carrying the big-endian byte order. -/
def openConnBE : Conn :=
  { bus := "/dev/i2c-1", addr := 0x76, f := true, endian := some .big }

/-- A closed connection whose `endian` interface field was never
assigned — the closed-state shape `NewConn`-built connections reach. -/
def closedConnNoEndian : Conn :=
  { bus := "/dev/i2c-1", addr := 0x76, f := false, endian := none }

/-- Atomic steps of a mutex-guarded operation: acquiring the mutex, one
access of the shared handle field, releasing the mutex. -/
inductive LockStep : Type
  | lock
  | access
  | unlock
deriving DecidableEq

/-- The three public operations that take the connection mutex. -/
inductive GuardedOp : Type
  | read
  | write
  | close
deriving DecidableEq

/-- Lock structure of each operation as written in the source:
`c.mu.Lock()`, then the handle accesses (the nil-handle check followed
by the file read / file write / file close with the `c.f = nil`
update), then the deferred `c.mu.Unlock()`. -/
def opSteps : GuardedOp → List LockStep
  | .read => [.lock, .access, .access, .unlock]
  | .write => [.lock, .access, .access, .unlock]
  | .close => [.lock, .access, .access, .unlock]

/-- Global state of one connection used from many threads: who holds
the mutex, and each thread's remaining steps. -/
structure MutexState : Type where
  owner : Option Nat
  rem : Nat → List LockStep

/-- Update one thread's remaining step list. -/
def setRem (r : Nat → List LockStep) (t : Nat) (l : List LockStep) :
    Nat → List LockStep :=
  fun u => if u = t then l else r u

/-- Interleaving semantics: at any point any thread may perform its
next step; `lock` blocks until the mutex is free, `unlock` frees it,
`access` is always machine-enabled (the proofs show it in fact only
happens while holding the mutex). -/
inductive MutexStep : MutexState → Nat → LockStep → MutexState → Prop
  | lock (s : MutexState) (t : Nat) (rest : List LockStep) :
      s.rem t = .lock :: rest → s.owner = none →
      MutexStep s t .lock { owner := some t, rem := setRem s.rem t rest }
  | access (s : MutexState) (t : Nat) (rest : List LockStep) :
      s.rem t = .access :: rest →
      MutexStep s t .access { owner := s.owner, rem := setRem s.rem t rest }
  | unlock (s : MutexState) (t : Nat) (rest : List LockStep) :
      s.rem t = .unlock :: rest →
      MutexStep s t .unlock { owner := none, rem := setRem s.rem t rest }

/-- Initial state: mutex free, every thread about to run the operation
`assign` gives it (or nothing). -/
def initState (assign : Nat → Option GuardedOp) : MutexState where
  owner := none
  rem := fun t =>
    match assign t with
    | none => []
    | some o => opSteps o

/-- States reachable by interleaving the assigned operations. -/
inductive Reach (assign : Nat → Option GuardedOp) : MutexState → Prop
  | init : Reach assign (initState assign)
  | step (s : MutexState) (t : Nat) (l : LockStep) (s' : MutexState) :
      Reach assign s → MutexStep s t l s' → Reach assign s'

/-- A thread is in its critical section: it has performed its `lock`
and not yet its `unlock`. -/
def inCritical (l : List LockStep) : Prop :=
  l = [.access, .access, .unlock] ∨ l = [.access, .unlock] ∨ l = [.unlock]

instance (l : List LockStep) : Decidable (inCritical l) := by
  unfold inCritical; infer_instance

/-- Shapes a thread's remaining step list can take. -/
def remShapes : List (List LockStep) :=
  [[], [.lock, .access, .access, .unlock], [.access, .access, .unlock],
    [.access, .unlock], [.unlock]]

/-- Inductive invariant: every remaining list is a suffix shape of an
operation, and any thread inside its critical section owns the mutex. -/
def MutexInv (s : MutexState) : Prop :=
  (∀ t, s.rem t ∈ remShapes) ∧ (∀ t, inCritical (s.rem t) → s.owner = some t)

theorem mutexInv_init (assign : Nat → Option GuardedOp) :
    MutexInv (initState assign) := by
  constructor
  · intro t
    simp only [initState]
    match assign t with
    | none => simp [remShapes]
    | some o => cases o <;> simp [opSteps, remShapes]
  · intro t ht
    exfalso
    simp only [initState] at ht
    match h : assign t with
    | none => rw [h] at ht; simp [inCritical] at ht
    | some o => rw [h] at ht; cases o <;> simp [opSteps, inCritical] at ht

theorem mutexInv_step (s : MutexState) (t : Nat) (l : LockStep) (s' : MutexState)
    (hinv : MutexInv s) (hstep : MutexStep s t l s') : MutexInv s' := by
  obtain ⟨hshape, hcrit⟩ := hinv
  cases hstep with
  | lock rest hrem howner =>
    have hs := hshape t
    rw [hrem] at hs
    have hrest : rest = [.access, .access, .unlock] := by
      simp [remShapes] at hs
      rcases hs with h | h | h | h
      all_goals simp_all
    constructor
    · intro u
      by_cases hu : u = t
      · subst hu; simp [setRem, hrest, remShapes]
      · simp only [setRem, if_neg hu]; exact hshape u
    · intro u hcu
      by_cases hu : u = t
      · subst hu; rfl
      · simp only [setRem, if_neg hu] at hcu
        have := hcrit u hcu
        rw [howner] at this
        exact absurd this (by simp)
  | access rest hrem =>
    have hs := hshape t
    rw [hrem] at hs
    have hrest : rest = [.access, .unlock] ∨ rest = [.unlock] := by
      simp [remShapes] at hs
      rcases hs with h | h | h | h
      all_goals simp_all
    have howner : s.owner = some t := by
      apply hcrit t
      rw [hrem]
      rcases hrest with h | h <;> subst h <;> simp [inCritical]
    constructor
    · intro u
      by_cases hu : u = t
      · subst hu
        rcases hrest with h | h <;> subst h <;> simp [setRem, remShapes]
      · simp only [setRem, if_neg hu]; exact hshape u
    · intro u hcu
      by_cases hu : u = t
      · subst hu; simpa using howner
      · simp only [setRem, if_neg hu] at hcu
        simpa using hcrit u hcu
  | unlock rest hrem =>
    have hs := hshape t
    rw [hrem] at hs
    have hrest : rest = [] := by
      simp [remShapes] at hs
      rcases hs with h | h | h | h
      all_goals simp_all
    constructor
    · intro u
      by_cases hu : u = t
      · subst hu; simp [setRem, hrest, remShapes]
      · simp only [setRem, if_neg hu]; exact hshape u
    · intro u hcu
      by_cases hu : u = t
      · subst hu
        simp [setRem, hrest, inCritical] at hcu
      · simp only [setRem, if_neg hu] at hcu
        have h1 := hcrit u hcu
        have h2 : s.owner = some t := by
          apply hcrit t
          rw [hrem, hrest]
          simp [inCritical]
        rw [h1] at h2
        exact absurd (Option.some.inj h2) hu

theorem mutexInv_reach (assign : Nat → Option GuardedOp) (s : MutexState)
    (hs : Reach assign s) : MutexInv s := by
  induction hs with
  | init => exact mutexInv_init assign
  | step s t l s' _ hstep ih => exact mutexInv_step s t l s' ih hstep

/-- Mutual exclusion of critical sections in any reachable state. -/
theorem mutex_exclusive (assign : Nat → Option GuardedOp) (s : MutexState)
    (hs : Reach assign s) (t u : Nat)
    (ht : inCritical (s.rem t)) (hu : inCritical (s.rem u)) : t = u := by
  have hinv := mutexInv_reach assign s hs
  have h1 := hinv.2 t ht
  have h2 := hinv.2 u hu
  rw [h1] at h2
  exact Option.some.inj h2

/-- A short transfer on `Conn.ReadUintN` yields the truncated error. -/
theorem readUintN_short {σ : Type} (dev : Device σ) (w : Nat) (cc : Conn) (s : σ)
    (hf : cc.f = true) (n : Nat) (d : List Nat) (s2 : σ)
    (hr : dev.read s w = ((n, d, none), s2)) (hn : n ≠ w) :
    Conn.ReadUintN dev w (some cc) s = (.err .truncated, some cc, s2) := by
  simp [Conn.ReadUintN, Conn.Read, hf, hr, hn]

/-- A short transfer on `Conn.WriteUintN` yields the truncated error. -/
theorem writeUintN_short {σ : Type} (dev : Device σ) (w : Nat) (cc : Conn)
    (bo : ByteOrder) (s : σ) (hf : cc.f = true) (hbo : cc.endian = some bo)
    (v n : Nat) (s2 : σ) (hw : dev.write s (putUint bo w v) = ((n, none), s2))
    (hn : n ≠ w) :
    Conn.WriteUintN dev w (some cc) v s = (.err .truncated, some cc, s2) := by
  simp [Conn.WriteUintN, Conn.Write, hf, hbo, hw, hn]

/-- `Conn.WriteUintN` against the loopback device stores the encoding. -/
theorem writeUintN_loopback (cc : Conn) (bo : ByteOrder) (w v : Nat) (s : List Nat)
    (hf : cc.f = true) (hbo : cc.endian = some bo) :
    Conn.WriteUintN loopback w (some cc) v s = (.ok (), some cc, putUint bo w v) := by
  simp [Conn.WriteUintN, Conn.Write, hf, hbo, loopback, putUint_length]

/-- `Conn.ReadUintN` against the loopback device decodes the stored
encoding back to the value modulo `256 ^ w`. -/
theorem readUintN_loopback (cc : Conn) (bo : ByteOrder) (w v : Nat)
    (hf : cc.f = true) (hbo : cc.endian = some bo) :
    Conn.ReadUintN loopback w (some cc) (putUint bo w v)
      = (.ok (v % 256 ^ w), some cc, putUint bo w v) := by
  simp [Conn.ReadUintN, Conn.Read, hf, hbo, loopback, putUint_length, getUint_putUint]

/-- C1: refuted by the code.  `NewConn` builds the struct literal
`&Conn{bus: bus, addr: addr, f: f}` and never assigns its `endian`
parameter to the connection's field.  With every system call
succeeding, `NewConn("/dev/i2c-1", 0x76, false, BigEndian)` returns a
connection whose byte-order field is the nil interface — not the
requested big-endian — and `WriteUint16` on that connection panics on
the nil-interface dereference instead of encoding big-endian. -/
theorem C1_endian_never_assigned :
    ((NewConn none okIoctlEnv unitDev () "/dev/i2c-1" 0x76 false .big).1.1.map
      Conn.endian = some none) ∧
    ((NewConn none okIoctlEnv unitDev () "/dev/i2c-1" 0x76 false .big).1.1.map
      Conn.endian ≠ some (some .big)) ∧
    (Conn.WriteUint16 unitDev
      (NewConn none okIoctlEnv unitDev () "/dev/i2c-1" 0x76 false .big).1.1
      0x1234 ()).1 = Outcome.panic := by
  refine ⟨rfl, by decide, rfl⟩

/-- C2: every public operation invoked on a nil connection returns
`ErrInvalid`, does not panic, and never touches the device behind the
absent handle: the device state comes back unchanged. -/
theorem C2_nil_conn_ops_invalid {σ : Type} (dev : Device σ) (s : σ) (len v : Nat)
    (data : List Nat) :
    Conn.Close dev none s = (some .invalid, none, s) ∧
    Conn.Read dev none s len = ((0, List.replicate len 0, some .invalid), none, s) ∧
    Conn.Write dev none s data = ((0, some .invalid), none, s) ∧
    Conn.ReadUint16 dev none s = (.err .invalid, none, s) ∧
    Conn.ReadUint32 dev none s = (.err .invalid, none, s) ∧
    Conn.ReadUint64 dev none s = (.err .invalid, none, s) ∧
    Conn.WriteUint16 dev none v s = (.err .invalid, none, s) ∧
    Conn.WriteUint32 dev none v s = (.err .invalid, none, s) ∧
    Conn.WriteUint64 dev none v s = (.err .invalid, none, s) :=
  ⟨rfl, rfl, rfl, rfl, rfl, rfl, rfl, rfl, rfl⟩

/-- C5 counterexample: `Close` on a nil connection returns
`ErrInvalid`, not the `ErrClosed` the claim states. -/
theorem C5_nil_close_not_closed_error :
    (Conn.Close unitDev none ()).1 = some I2CError.invalid ∧
    (Conn.Close unitDev none ()).1 ≠ some I2CError.closed := by
  decide

/-- C5 amended: `Close` invoked on a nil connection returns the
invalid-connection error (`ErrInvalid`). -/
theorem C5_nil_close_invalid {σ : Type} (dev : Device σ) (s : σ) :
    Conn.Close dev none s = (some .invalid, none, s) := rfl

/-- A closed connection carrying the big-endian byte order. -/
def closedConnBE : Conn :=
  { bus := "/dev/i2c-1", addr := 0x76, f := false, endian := some .big }

/-- Device whose close reports errno 5 (EIO); reads and writes
transfer nothing. -/
def closeFailDev : Device Unit where
  read := fun s len => ((0, List.replicate len 0, none), s)
  write := fun s _ => ((0, none), s)
  close := fun s => (some (.os 5), s)

/-- C3: on an open connection, a `ReadUintN` whose underlying read
succeeds but returns fewer than N/8 bytes yields `ErrTruncated` — not
a partial or zero decoded value as success — and a `WriteUintN` whose
underlying write succeeds but reports fewer than N/8 bytes written
yields `ErrTruncated`. -/
theorem C3_short_transfer_truncated {σ : Type} (dev : Device σ) (s : σ) (cc : Conn)
    (bo : ByteOrder) (hf : cc.f = true) (hbo : cc.endian = some bo) :
    (∀ n d s2, dev.read s 2 = ((n, d, none), s2) → n ≠ 2 →
      Conn.ReadUint16 dev (some cc) s = (.err .truncated, some cc, s2)) ∧
    (∀ n d s2, dev.read s 4 = ((n, d, none), s2) → n ≠ 4 →
      Conn.ReadUint32 dev (some cc) s = (.err .truncated, some cc, s2)) ∧
    (∀ n d s2, dev.read s 8 = ((n, d, none), s2) → n ≠ 8 →
      Conn.ReadUint64 dev (some cc) s = (.err .truncated, some cc, s2)) ∧
    (∀ v n s2, dev.write s (putUint bo 2 v) = ((n, none), s2) → n ≠ 2 →
      Conn.WriteUint16 dev (some cc) v s = (.err .truncated, some cc, s2)) ∧
    (∀ v n s2, dev.write s (putUint bo 4 v) = ((n, none), s2) → n ≠ 4 →
      Conn.WriteUint32 dev (some cc) v s = (.err .truncated, some cc, s2)) ∧
    (∀ v n s2, dev.write s (putUint bo 8 v) = ((n, none), s2) → n ≠ 8 →
      Conn.WriteUint64 dev (some cc) v s = (.err .truncated, some cc, s2)) := by
  refine ⟨?_, ?_, ?_, ?_, ?_, ?_⟩
  · intro n d s2 hr hn; exact readUintN_short dev 2 cc s hf n d s2 hr hn
  · intro n d s2 hr hn; exact readUintN_short dev 4 cc s hf n d s2 hr hn
  · intro n d s2 hr hn; exact readUintN_short dev 8 cc s hf n d s2 hr hn
  · intro v n s2 hw hn; exact writeUintN_short dev 2 cc bo s hf hbo v n s2 hw hn
  · intro v n s2 hw hn; exact writeUintN_short dev 4 cc bo s hf hbo v n s2 hw hn
  · intro v n s2 hw hn; exact writeUintN_short dev 8 cc bo s hf hbo v n s2 hw hn

/-- C3 at a concrete input: the short-transfer device moves one byte
per call, so the two-byte helpers report the truncated error. -/
theorem C3_short_transfer_truncated_witness :
    Conn.ReadUint16 shortDev (some openConnBE) ()
      = (.err .truncated, some openConnBE, ()) ∧
    Conn.WriteUint16 shortDev (some openConnBE) 0x1234 ()
      = (.err .truncated, some openConnBE, ()) :=
  ⟨(C3_short_transfer_truncated shortDev () openConnBE .big rfl rfl).1
      1 (List.replicate 2 0) () rfl (by decide),
   (C3_short_transfer_truncated shortDev () openConnBE .big rfl rfl).2.2.2.1
      0x1234 1 () rfl (by decide)⟩

/-- C4 counterexample: on a closed connection whose byte-order field is
nil — the closed-state shape every `NewConn`-built connection reaches,
since `NewConn` never assigns the field — `WriteUint16` panics on the
nil-interface dereference instead of returning the closed error. -/
theorem C4_closed_write_panics :
    (Conn.WriteUint16 unitDev (some closedConnNoEndian) 0x1234 ()).1 = Outcome.panic ∧
    (Conn.WriteUint16 unitDev (some closedConnNoEndian) 0x1234 ()).1
      ≠ Outcome.err I2CError.closed := by
  decide

/-- C4 amended: on a closed connection whose byte-order field is set,
every operation returns `ErrClosed`, the connection stays closed (no
operation reopens it), and a repeated `Close` leaves the device state
untouched — the resource is never released a second time. -/
theorem C4_closed_terminal {σ : Type} (dev : Device σ) (s : σ) (cc : Conn)
    (bo : ByteOrder) (hf : cc.f = false) (hbo : cc.endian = some bo)
    (len v : Nat) (data : List Nat) :
    Conn.Close dev (some cc) s = (some .closed, some cc, s) ∧
    Conn.Read dev (some cc) s len
      = ((0, List.replicate len 0, some .closed), some cc, s) ∧
    Conn.Write dev (some cc) s data = ((0, some .closed), some cc, s) ∧
    Conn.ReadUint16 dev (some cc) s = (.err .closed, some cc, s) ∧
    Conn.ReadUint32 dev (some cc) s = (.err .closed, some cc, s) ∧
    Conn.ReadUint64 dev (some cc) s = (.err .closed, some cc, s) ∧
    Conn.WriteUint16 dev (some cc) v s = (.err .closed, some cc, s) ∧
    Conn.WriteUint32 dev (some cc) v s = (.err .closed, some cc, s) ∧
    Conn.WriteUint64 dev (some cc) v s = (.err .closed, some cc, s) := by
  refine ⟨?_, ?_, ?_, ?_, ?_, ?_, ?_, ?_, ?_⟩ <;>
    simp [Conn.Close, Conn.Read, Conn.Write, Conn.ReadUint16, Conn.ReadUint32,
      Conn.ReadUint64, Conn.WriteUint16, Conn.WriteUint32, Conn.WriteUint64,
      Conn.ReadUintN, Conn.WriteUintN, hf, hbo]

/-- C4 amended at a concrete input: a closed big-endian connection
reports `ErrClosed` on a further `Close` and on `WriteUint16`. -/
theorem C4_closed_terminal_witness :
    Conn.Close unitDev (some closedConnBE) () = (some .closed, some closedConnBE, ()) ∧
    Conn.WriteUint16 unitDev (some closedConnBE) 7 ()
      = (.err .closed, some closedConnBE, ()) :=
  ⟨(C4_closed_terminal unitDev () closedConnBE .big rfl rfl 1 7 []).1,
   (C4_closed_terminal unitDev () closedConnBE .big rfl rfl 1 7 []).2.2.2.2.2.2.1⟩

/-- C6: for every value of width 2, 4 or 8 bytes and either byte
order, `WriteUintN` followed by the matching `ReadUintN` through the
loopback device — which returns exactly the bytes previously written —
succeeds and yields the original value. -/
theorem C6_loopback_roundtrip (bo : ByteOrder) (cc : Conn) (s : List Nat)
    (v2 v4 v8 : Nat) (hf : cc.f = true) (hbo : cc.endian = some bo)
    (h2 : v2 < 256 ^ 2) (h4 : v4 < 256 ^ 4) (h8 : v8 < 256 ^ 8) :
    (Conn.WriteUint16 loopback (some cc) v2 s).1 = .ok () ∧
    (Conn.ReadUint16 loopback (some cc)
      (Conn.WriteUint16 loopback (some cc) v2 s).2.2).1 = .ok v2 ∧
    (Conn.WriteUint32 loopback (some cc) v4 s).1 = .ok () ∧
    (Conn.ReadUint32 loopback (some cc)
      (Conn.WriteUint32 loopback (some cc) v4 s).2.2).1 = .ok v4 ∧
    (Conn.WriteUint64 loopback (some cc) v8 s).1 = .ok () ∧
    (Conn.ReadUint64 loopback (some cc)
      (Conn.WriteUint64 loopback (some cc) v8 s).2.2).1 = .ok v8 := by
  have h2n : v2 < 65536 := by norm_num at h2; exact h2
  have h4n : v4 < 4294967296 := by norm_num at h4; exact h4
  have h8n : v8 < 18446744073709551616 := by norm_num at h8; exact h8
  refine ⟨?_, ?_, ?_, ?_, ?_, ?_⟩
  · simp [Conn.WriteUint16, writeUintN_loopback cc bo 2 v2 s hf hbo]
  · simp [Conn.ReadUint16, Conn.WriteUint16, writeUintN_loopback cc bo 2 v2 s hf hbo,
      readUintN_loopback cc bo 2 v2 hf hbo, Nat.mod_eq_of_lt h2n]
  · simp [Conn.WriteUint32, writeUintN_loopback cc bo 4 v4 s hf hbo]
  · simp [Conn.ReadUint32, Conn.WriteUint32, writeUintN_loopback cc bo 4 v4 s hf hbo,
      readUintN_loopback cc bo 4 v4 hf hbo, Nat.mod_eq_of_lt h4n]
  · simp [Conn.WriteUint64, writeUintN_loopback cc bo 8 v8 s hf hbo]
  · simp [Conn.ReadUint64, Conn.WriteUint64, writeUintN_loopback cc bo 8 v8 s hf hbo,
      readUintN_loopback cc bo 8 v8 hf hbo, Nat.mod_eq_of_lt h8n]

/-- C6 at a concrete input: `0x1234` written big-endian through the
loopback reads back as `0x1234`. -/
theorem C6_loopback_roundtrip_witness :
    0x1234 < 256 ^ 2 ∧
    (Conn.ReadUint16 loopback (some openConnBE)
      (Conn.WriteUint16 loopback (some openConnBE) 0x1234 []).2.2).1 = .ok 0x1234 :=
  ⟨by decide,
   (C6_loopback_roundtrip .big openConnBE [] 0x1234 0xdeadbeef 0x1122334455667788
      rfl rfl (by decide) (by decide) (by decide)).2.1⟩

/-- The configuration-phase error of `NewConn` (source lines 93 to
100): the `TENBIT` ioctl on the freshly built connection with argument
1 or 0, then — only on success — the `SLAVE` ioctl binding the device
address. -/
def newConnCfgErr (env : IoctlEnv) (bus : String) (addr : Nat) (tenBit : Bool) :
    Option I2CError :=
  let c : Conn := { bus := bus, addr := addr, f := true, endian := none }
  let err1 :=
    if tenBit then Conn.ioctl env (some c) TENBIT 1
    else Conn.ioctl env (some c) TENBIT 0
  match err1 with
  | none => Conn.ioctl env (some c) SLAVE addr
  | some e => some e

/-- C7: when the open succeeds but a configuration ioctl fails,
`NewConn` closes the opened file (the device's close runs on the
state), propagates the configuration error, and returns a nil
connection — never a partially-configured one. -/
theorem C7_config_failure_cleanup {σ : Type} (dev : Device σ) (s : σ)
    (env : IoctlEnv) (bus : String) (addr : Nat) (tenBit : Bool)
    (endian : ByteOrder) (e : I2CError)
    (hcfg : newConnCfgErr env bus addr tenBit = some e) :
    NewConn none env dev s bus addr tenBit endian = ((none, some e), (dev.close s).2) := by
  unfold newConnCfgErr at hcfg
  unfold NewConn
  simp only at hcfg ⊢
  rw [hcfg]
  simp [Conn.Close]

/-- C7 at a concrete input: with the `TENBIT` ioctl failing with errno
5, `NewConn` returns no connection, the errno error, and an unchanged
(already re-closed) unit device state. -/
theorem C7_config_failure_cleanup_witness :
    newConnCfgErr tenbitFailEnv "/dev/i2c-1" 0x76 true = some (I2CError.os 5) ∧
    NewConn none tenbitFailEnv unitDev () "/dev/i2c-1" 0x76 true .big
      = ((none, some (.os 5)), ()) :=
  ⟨rfl,
   C7_config_failure_cleanup unitDev () tenbitFailEnv "/dev/i2c-1" 0x76 true .big
      (I2CError.os 5) rfl⟩

/-- C8 counterexample: a failure of the `sc.Control` call inside the
ioctl helper is silently swallowed — `Control` reports the bad-file
error, the ioctl closure never runs, and the helper returns success. -/
theorem C8_control_error_swallowed :
    controlFailEnv.controlErr TENBIT 1 = some (I2CError.os 9) ∧
    Conn.ioctl controlFailEnv (some openConnBE) TENBIT 1 = none := by
  refine ⟨rfl, rfl⟩

/-- C8 amended: on an open connection the ioctl helper propagates a
`SyscallConn` failure and a nonzero errno of the raw ioctl syscall;
only the error returned by `sc.Control` itself is discarded. -/
theorem C8_syscall_errors_propagate (env : IoctlEnv) (cc : Conn) (cmd arg : Nat)
    (hf : cc.f = true) :
    (∀ e, env.syscallConnErr cmd arg = some e →
      Conn.ioctl env (some cc) cmd arg = some e) ∧
    (env.syscallConnErr cmd arg = none → env.controlErr cmd arg = none →
      env.errno cmd arg ≠ 0 →
      Conn.ioctl env (some cc) cmd arg = some (.os (env.errno cmd arg))) := by
  constructor
  · intro e he; simp [Conn.ioctl, hf, he]
  · intro hsc hctl hno; simp [Conn.ioctl, hf, hsc, hctl, hno]

/-- C8 amended at a concrete input: errno 5 from the `TENBIT` ioctl
reaches the caller as an error. -/
theorem C8_syscall_errors_propagate_witness :
    Conn.ioctl tenbitFailEnv (some openConnBE) TENBIT 1 = some (I2CError.os 5) :=
  (C8_syscall_errors_propagate tenbitFailEnv openConnBE TENBIT 1 rfl).2 rfl rfl
    (by decide)

/-- C9: in every reachable interleaving of mutex-guarded `Read`,
`Write` and `Close` operations on one connection, at most one thread is
between its lock and unlock at any time — so the handle accesses of
two operations never interleave and a `Close` never overlaps an
in-flight `Read` or `Write` — and every handle-access step is taken
while its thread owns the mutex. -/
theorem C9_mutex_serializes (assign : Nat → Option GuardedOp) (s : MutexState)
    (hs : Reach assign s) :
    (∀ t u, inCritical (s.rem t) → inCritical (s.rem u) → t = u) ∧
    (∀ t s', MutexStep s t .access s' → s.owner = some t) := by
  have hinv := mutexInv_reach assign s hs
  constructor
  · intro t u ht hu
    exact mutex_exclusive assign s hs t u ht hu
  · intro t s' hstep
    cases hstep with
    | access rest hrem =>
      apply hinv.2 t
      have hsh := hinv.1 t
      rw [hrem] at hsh
      rw [hrem]
      simp only [remShapes, List.mem_cons, List.mem_singleton] at hsh
      rcases hsh with h | h | h | h | h
      · exact absurd h (by simp)
      · exact absurd h (by simp)
      · rw [h]; simp [inCritical]
      · rw [h]; simp [inCritical]
      · exact absurd h (by simp)

/-- One reader and one closer assigned to threads 0 and 1. -/
def assignRC : Nat → Option GuardedOp :=
  fun t => if t = 0 then some .read else if t = 1 then some .close else none

/-- The state after thread 0 acquires the mutex from the initial
state. -/
def lockedState : MutexState :=
  { owner := some 0, rem := setRem (initState assignRC).rem 0 [.access, .access, .unlock] }

/-- C9 at a concrete input: after thread 0 locks, it owns the mutex for
its access step, and any thread found in a critical section is thread
0 itself. -/
theorem C9_mutex_serializes_witness :
    lockedState.owner = some 0 ∧ (0 : Nat) = 0 :=
  have hreach : Reach assignRC lockedState :=
    Reach.step (initState assignRC) 0 .lock lockedState Reach.init
      (MutexStep.lock (initState assignRC) 0 [.access, .access, .unlock] rfl rfl)
  ⟨(C9_mutex_serializes assignRC lockedState hreach).2 0
      { owner := lockedState.owner, rem := setRem lockedState.rem 0 [.access, .unlock] }
      (MutexStep.access lockedState 0 [.access, .unlock] rfl),
   (C9_mutex_serializes assignRC lockedState hreach).1 0 0 (by decide) (by decide)⟩

/-- An open connection whose byte-order field was never assigned —
the shape every `NewConn`-built connection has. -/
def openConnNoEndian : Conn :=
  { bus := "/dev/i2c-1", addr := 0x76, f := true, endian := none }

/-- C10 counterexample: after a `Close` whose underlying file close
fails (errno 5), the handle is indeed cleared and the error returned,
but on the resulting closed connection — whose byte-order field is
nil, as on every `NewConn`-built connection — a subsequent
`WriteUint16` panics on the nil-interface dereference instead of
returning the closed error, refuting "every subsequent operation
returns the closed error". -/
theorem C10_post_close_write_panics :
    (Conn.Close closeFailDev (some openConnNoEndian) ()).1 = some (I2CError.os 5) ∧
    (Conn.Close closeFailDev (some openConnNoEndian) ()).2.1
      = some closedConnNoEndian ∧
    (Conn.WriteUint16 unitDev
      (Conn.Close closeFailDev (some openConnNoEndian) ()).2.1 0x1234 ()).1
      = Outcome.panic ∧
    (Conn.WriteUint16 unitDev
      (Conn.Close closeFailDev (some openConnNoEndian) ()).2.1 0x1234 ()).1
      ≠ Outcome.err I2CError.closed := by
  decide

/-- C10 amended: on an open connection whose byte-order field is set,
when the underlying file close fails, `Close` still clears the handle
and returns the underlying error; the connection transitions to the
terminal closed state regardless, so every subsequent operation —
`Read`, `Write`, all six fixed-width helpers, and a further `Close`
(which leaves the device untouched) — returns `ErrClosed`. -/
theorem C10_close_error_still_closes {σ : Type} (dev : Device σ) (s s2 s3 : σ)
    (cc : Conn) (bo : ByteOrder) (e : I2CError) (hf : cc.f = true)
    (hbo : cc.endian = some bo) (hclose : dev.close s = (some e, s2))
    (len v : Nat) (data : List Nat) :
    Conn.Close dev (some cc) s = (some e, some { cc with f := false }, s2) ∧
    Conn.Close dev (some { cc with f := false }) s3
      = (some .closed, some { cc with f := false }, s3) ∧
    Conn.Read dev (some { cc with f := false }) s3 len
      = ((0, List.replicate len 0, some .closed), some { cc with f := false }, s3) ∧
    Conn.Write dev (some { cc with f := false }) s3 data
      = ((0, some .closed), some { cc with f := false }, s3) ∧
    Conn.ReadUint16 dev (some { cc with f := false }) s3
      = (.err .closed, some { cc with f := false }, s3) ∧
    Conn.ReadUint32 dev (some { cc with f := false }) s3
      = (.err .closed, some { cc with f := false }, s3) ∧
    Conn.ReadUint64 dev (some { cc with f := false }) s3
      = (.err .closed, some { cc with f := false }, s3) ∧
    Conn.WriteUint16 dev (some { cc with f := false }) v s3
      = (.err .closed, some { cc with f := false }, s3) ∧
    Conn.WriteUint32 dev (some { cc with f := false }) v s3
      = (.err .closed, some { cc with f := false }, s3) ∧
    Conn.WriteUint64 dev (some { cc with f := false }) v s3
      = (.err .closed, some { cc with f := false }, s3) := by
  refine ⟨?_, ?_, ?_, ?_, ?_, ?_, ?_, ?_, ?_, ?_⟩ <;>
    simp [Conn.Close, Conn.Read, Conn.Write, Conn.ReadUint16, Conn.ReadUint32,
      Conn.ReadUint64, Conn.WriteUint16, Conn.WriteUint32, Conn.WriteUint64,
      Conn.ReadUintN, Conn.WriteUintN, hf, hbo, hclose]

/-- C10 amended at a concrete input: the device whose close reports
errno 5 still leaves the big-endian connection closed, the error is
returned, and a subsequent `Close` and `WriteUint16` report
`ErrClosed`. -/
theorem C10_close_error_still_closes_witness :
    Conn.Close closeFailDev (some openConnBE) ()
      = (some (.os 5), some { openConnBE with f := false }, ()) ∧
    Conn.Close closeFailDev (some { openConnBE with f := false }) ()
      = (some .closed, some { openConnBE with f := false }, ()) ∧
    Conn.WriteUint16 closeFailDev (some { openConnBE with f := false }) 7 ()
      = (.err .closed, some { openConnBE with f := false }, ()) :=
  ⟨(C10_close_error_still_closes closeFailDev () () () openConnBE .big (I2CError.os 5)
      rfl rfl rfl 1 7 []).1,
   (C10_close_error_still_closes closeFailDev () () () openConnBE .big (I2CError.os 5)
      rfl rfl rfl 1 7 []).2.1,
   (C10_close_error_still_closes closeFailDev () () () openConnBE .big (I2CError.os 5)
      rfl rfl rfl 1 7 []).2.2.2.2.2.2.2.1⟩
